import Mathlib

/- Shallow embedding of the worker-thread salt search repository:
   the coordinator service, the salt worker loop, the worker message
   shape and the HTTP controller route. -/

namespace WorkerPool

/-- A structured-clone message value as delivered by postMessage. A JavaScript
field that is absent, that is undefined, is modelled as none. The worker posts
either a bare salt record or an Error object; the coordinator reads an
isSuccess field that neither of those carries. -/
structure JsMsg where
  isSuccess : Option Bool
  salt : Option Nat
  errorMessage : Option String
deriving DecidableEq

/-- The task record posted to a worker: workerNumber is the stride,
offset the worker index, max the exclusive upper bound. -/
structure Message where
  workerNumber : Nat
  offset : Nat
  max : Nat
deriving DecidableEq

/-- The record the worker posts when a candidate matches. -/
def saltMsg (i : Nat) : JsMsg :=
  { isSuccess := none, salt := some i, errorMessage := none }

/-- The Error object the worker posts after its loop finishes. -/
def notFoundMsg : JsMsg :=
  { isSuccess := none, salt := none, errorMessage := some "Not Found" }

/-- The candidates visited by the worker loop, starting at i and stepping by
stride while below max. Fuel-indexed structural recursion; any fuel at least
max minus i produces the whole terminating loop when stride is positive. -/
def scannedFrom : Nat → Nat → Nat → Nat → List Nat
  | 0, _, _, _ => []
  | fuel + 1, i, stride, max =>
    if i < max then i :: scannedFrom fuel (i + stride) stride max else []

/-- The candidates the worker visits for a task: the loop runs from offset
with step stride below max; fuel max suffices for stride at least one. -/
def scanned (offset stride max : Nat) : List Nat :=
  scannedFrom max offset stride max

/-- All messages the worker posts while handling one task, in order: one salt
record per matching candidate, since the loop has no break, then
unconditionally the Not Found error. The hash and suffix test are abstracted
as the opaque probe, returning the derived address on a match. -/
def workerMessages (probe : Nat → Option String) (m : Message) : List JsMsg :=
  (scanned m.offset m.workerNumber m.max).filterMap
    (fun i => (probe i).map (fun _ => saltMsg i)) ++ [notFoundMsg]

/-- The first message a worker posts; the coordinator listens only once. -/
def firstMessage (probe : Nat → Option String) (m : Message) : JsMsg :=
  (workerMessages probe m).headD notFoundMsg

/-- Why a worker promise was rejected. -/
inductive Reason where
  | msgReason (msg : JsMsg)
  | errEvent (e : String)
  | exitCode (code : Nat)
  | spawnError
deriving DecidableEq

/-- The settlement of one worker promise. -/
inductive Settlement where
  | fulfilled (msg : JsMsg)
  | rejected (r : Reason)
deriving DecidableEq

/-- The once-message handler in spawn: resolve when the isSuccess field of
the message is truthy, otherwise reject with the message itself. An absent
field is falsy. -/
def classifyMessage (msg : JsMsg) : Settlement :=
  if msg.isSuccess = some true then Settlement.fulfilled msg
  else Settlement.rejected (Reason.msgReason msg)

/-- Whether a worker runs its loop normally or dies with an execution fault
before posting anything. -/
inductive WorkerBehavior where
  | normal
  | crash (e : String)

/-- How the promise created in spawn settles for one worker: a normal worker
settles on its first posted message; a crashed worker fires the error event,
which rejects. -/
def workerSettlement (probe : Nat → Option String) (m : Message) :
    WorkerBehavior → Settlement
  | WorkerBehavior.normal => classifyMessage (firstMessage probe m)
  | WorkerBehavior.crash e => Settlement.rejected (Reason.errEvent e)

/-- Promise.any over the worker promises: a fulfilled settlement wins; if
every promise rejects, the AggregateError carries all reasons in input
order. -/
def promiseAny : List Settlement → Except (List Reason) JsMsg
  | [] => Except.error []
  | Settlement.fulfilled m :: _ => Except.ok m
  | Settlement.rejected r :: rest =>
    match promiseAny rest with
    | Except.ok m => Except.ok m
    | Except.error rs => Except.error (r :: rs)

/-- The coordinator-side view of one spawned worker thread. -/
structure WorkerHandle where
  listenersAttached : Bool
  running : Bool
deriving DecidableEq

/-- Detaches the message, error and exit listeners registered in spawn. -/
def removeAllListeners (w : WorkerHandle) : WorkerHandle :=
  { w with listenersAttached := false }

/-- Whether the exit listener registered in spawn runs for an exit event with
the given code: it must still be attached, and it rejects only on a nonzero
code. -/
def exitListenerFires (w : WorkerHandle) (code : Nat) : Bool :=
  w.listenersAttached && (code != 0)

/-- One step of the terminate method: remove all listeners first, then await
the worker terminate call, which stops the thread and raises an exit event
with code one for a thread that was still running. Returns the final handle
and whether the exit listener fired. -/
def terminateOne (w : WorkerHandle) : WorkerHandle × Bool :=
  let w1 := removeAllListeners w
  let fired := exitListenerFires w1 1
  ({ w1 with running := false }, fired)

/-- The terminate method over the whole worker array, via Promise.all. -/
def terminateAll (ws : List WorkerHandle) : List (WorkerHandle × Bool) :=
  ws.map terminateOne

/-- A freshly spawned worker: listeners attached by spawn, thread running. -/
def spawnedHandle : WorkerHandle :=
  { listenersAttached := true, running := true }

/-- The value heavyComputation returns together with what its catch handler
saw and the final state of every worker it spawned. -/
structure RunOutput where
  result : Option JsMsg
  caughtErrors : List Reason
  finalWorkers : List WorkerHandle
deriving DecidableEq

/-- succeeded in the spec maps to the result variable holding a value. -/
def RunOutput.succeeded (o : RunOutput) : Bool := o.result.isSome

/-- failureCount in the spec maps to the number of errors carried by the
AggregateError the catch handler received. -/
def RunOutput.failureCount (o : RunOutput) : Nat := o.caughtErrors.length

/-- How many workers were actually spawned: all n, unless the spawn call at
some index k raised first. -/
def spawnedCount (n : Nat) : Option Nat → Nat
  | none => n
  | some k => min k n

/-- heavyComputation, generalized over the worker count and the bound that
the source hardcodes as five and five hundred thousand. The try block spawns
one worker per index and awaits Promise.any of their promises; the catch
absorbs any rejection; the finally runs the terminate method over every
spawned worker. spawnFail models the spawn call at a given index raising,
the internal-fault path, also absorbed by the catch. -/
def run (n maxB : Nat) (probe : Nat → Option String) (beh : Nat → WorkerBehavior) :
    Option Nat → RunOutput
  | some k =>
    { result := none, caughtErrors := [Reason.spawnError],
      finalWorkers :=
        (terminateAll (List.replicate (spawnedCount n (some k)) spawnedHandle)).map
          Prod.fst }
  | none =>
    match promiseAny
        ((List.range n).map (fun i => workerSettlement probe ⟨n, i, maxB⟩ (beh i))) with
    | Except.ok m =>
      { result := some m, caughtErrors := [],
        finalWorkers := (terminateAll (List.replicate n spawnedHandle)).map Prod.fst }
    | Except.error rs =>
      { result := none, caughtErrors := rs,
        finalWorkers := (terminateAll (List.replicate n spawnedHandle)).map Prod.fst }

/-- The worker count hardcoded in heavyComputation. -/
def workerNum : Nat := 5

/-- The search bound hardcoded in heavyComputation. -/
def saltMax : Nat := 500000

/-- The five task records heavyComputation posts to its workers. -/
def heavyTasks : List Message :=
  (List.range workerNum).map (fun i => ⟨workerNum, i, saltMax⟩)

/-- heavyComputation as called from the controller: no parameters beyond the
injected probe and the workers behaviors; the count and bound are fixed. -/
def heavyComputation (probe : Nat → Option String) (beh : Nat → WorkerBehavior) :
    RunOutput :=
  run workerNum saltMax probe beh none

/-- The body of the getHeavy route response. -/
structure HeavyResponse where
  data : String
deriving DecidableEq

/-- The getHeavy controller route: awaits heavyComputation, logs the result,
and answers with the constant ok record whatever the result was. -/
def getHeavy (probe : Nat → Option String) (beh : Nat → WorkerBehavior) :
    HeavyResponse :=
  let _result := heavyComputation probe beh
  { data := "ok" }

/-- A probe matching only candidate four; with five workers and bound five,
worker four scans exactly that candidate. -/
def probeAt4 : Nat → Option String :=
  fun v => if v = 4 then some "0xd3ad" else none

/-- Behaviors where worker two crashes and the rest run normally. -/
def behCrash2 : Nat → WorkerBehavior :=
  fun i => if i = 2 then WorkerBehavior.crash "boom" else WorkerBehavior.normal

/-- Every candidate the loop visits lies at or above the start, below the
bound, and at a multiple of the stride from the start. -/
theorem scannedFrom_sound (s max : Nat) :
    ∀ fuel i v, v ∈ scannedFrom fuel i s max → i ≤ v ∧ v < max ∧ s ∣ (v - i) := by
  intro fuel
  induction fuel with
  | zero => intro i v h; simp [scannedFrom] at h
  | succ fuel ih =>
    intro i v h
    simp only [scannedFrom] at h
    by_cases hi : i < max
    · rw [if_pos hi] at h
      rcases List.mem_cons.mp h with rfl | h2
      · exact ⟨Nat.le_refl _, hi, by simp⟩
      · obtain ⟨h1, h2', h3⟩ := ih (i + s) v h2
        refine ⟨by omega, h2', ?_⟩
        have hv : v - i = (v - (i + s)) + s := by omega
        rw [hv]
        exact Nat.dvd_add h3 (Nat.dvd_refl s)
    · rw [if_neg hi] at h
      simp at h

/-- With a positive stride and enough fuel, the loop visits every candidate
at or above the start, below the bound, at a stride multiple from the
start. -/
theorem scannedFrom_complete (s max : Nat) (hs : 0 < s) :
    ∀ fuel i v, i ≤ v → v < max → s ∣ (v - i) → max - i ≤ fuel →
      v ∈ scannedFrom fuel i s max := by
  intro fuel
  induction fuel with
  | zero => intro i v h1 h2 _ h4; omega
  | succ fuel ih =>
    intro i v h1 h2 h3 h4
    have hi : i < max := by omega
    simp only [scannedFrom, if_pos hi]
    rcases Nat.eq_or_lt_of_le h1 with rfl | hlt
    · exact List.mem_cons_self _ _
    · apply List.mem_cons_of_mem
      have hsle : s ≤ v - i := Nat.le_of_dvd (by omega) h3
      have hge : i + s ≤ v := by omega
      have hdvd : s ∣ (v - (i + s)) := by
        have hv : v - (i + s) = (v - i) - s := by omega
        rw [hv]
        exact Nat.dvd_sub' h3 (Nat.dvd_refl s)
      exact ih (i + s) v hge h2 hdvd (by omega)

/-- Membership characterization of the worker loop for a positive stride. -/
theorem mem_scanned (offset s max v : Nat) (hs : 0 < s) :
    v ∈ scanned offset s max ↔ offset ≤ v ∧ v < max ∧ s ∣ (v - offset) := by
  constructor
  · exact scannedFrom_sound s max max offset v
  · rintro ⟨h1, h2, h3⟩
    exact scannedFrom_complete s max hs max offset v h1 h2 h3 (by omega)

/-- A filterMap over elements the function sends to none is empty. -/
theorem filterMap_none_eq_nil {α β : Type} (f : α → Option β) :
    ∀ l : List α, (∀ a ∈ l, f a = none) → l.filterMap f = [] := by
  intro l
  induction l with
  | nil => intro _; rfl
  | cons a l ih =>
    intro h
    rw [List.filterMap_cons, h a (List.mem_cons_self a l)]
    exact ih (fun x hx => h x (List.mem_cons_of_mem a hx))

/-- A worker whose partition holds no matching candidate posts exactly the
single Not Found error. -/
theorem workerMessages_of_no_match (probe : Nat → Option String) (m : Message)
    (h : ∀ v ∈ scanned m.offset m.workerNumber m.max, probe v = none) :
    workerMessages probe m = [notFoundMsg] := by
  unfold workerMessages
  rw [filterMap_none_eq_nil _ _ (fun a ha => by rw [h a ha]; rfl)]
  rfl

/-- Promise.any of rejected promises only is the AggregateError of all their
reasons in order. -/
theorem promiseAny_all_rejected (reasons : List Reason) :
    promiseAny (reasons.map Settlement.rejected) = Except.error reasons := by
  induction reasons with
  | nil => rfl
  | cons r rs ih => simp [promiseAny, ih]

/-- Every handle coming out of the terminate method is stopped with its
listeners detached. -/
theorem terminateAll_stopped (ws : List WorkerHandle) :
    (((terminateAll ws).map Prod.fst).all
      (fun w => !w.running && !w.listenersAttached)) = true := by
  induction ws with
  | nil => rfl
  | cons w ws ih =>
    simp only [terminateAll, List.map_cons, List.all_cons] at ih ⊢
    exact ih

/-- The exit listener never fires during the terminate method. -/
theorem terminateOne_snd (w : WorkerHandle) : (terminateOne w).2 = false := rfl

/-- C1: the worker does not emit exactly one Outcome and does not stop at the
first match. The loop has no break: on a task with stride one and bound two
where both candidates match, the worker posts three messages, the salt record
for candidate zero, then a salt record for candidate one examined after the
first match, then the unconditional Not Found error. -/
theorem saltWorker_keeps_scanning_after_match :
    workerMessages (fun _ => some "0xd3ad") ⟨1, 0, 2⟩
      = [saltMsg 0, saltMsg 1, notFoundMsg] ∧
    (workerMessages (fun _ => some "0xd3ad") ⟨1, 0, 2⟩).length = 3 := by
  exact ⟨rfl, rfl⟩

/-- C2: a satisfying candidate does not make run succeed. With one worker,
bound one and a probe matching candidate zero, the worker posts its salt
record first, yet the record carries no isSuccess field, the message handler
rejects it, Promise.any receives only rejections and the catch leaves the
result empty. -/
theorem run_drops_found_value :
    (fun v => if v = 0 then some "0xd3ad" else none) 0 = some "0xd3ad" ∧
    firstMessage (fun v => if v = 0 then some "0xd3ad" else none) ⟨1, 0, 1⟩
      = saltMsg 0 ∧
    (run 1 1 (fun v => if v = 0 then some "0xd3ad" else none)
      (fun _ => WorkerBehavior.normal) none).succeeded = false := by
  exact ⟨rfl, rfl, rfl⟩

/-- C3: with workerCount at least one, when no candidate below the bound
satisfies the probe, every worker posts the Not Found error as its first
message, every promise rejects, Promise.any raises the AggregateError of all
workerCount reasons, the catch absorbs it and run returns normally with no
success and failureCount equal to workerCount. -/
theorem run_no_match_all_fail (n maxB : Nat) (probe : Nat → Option String)
    (_hn : 1 ≤ n) (h : ∀ v, v < maxB → probe v = none) :
    (run n maxB probe (fun _ => WorkerBehavior.normal) none).succeeded = false ∧
    (run n maxB probe (fun _ => WorkerBehavior.normal) none).failureCount = n := by
  have hw : ∀ i, workerSettlement probe ⟨n, i, maxB⟩ WorkerBehavior.normal
      = Settlement.rejected (Reason.msgReason notFoundMsg) := by
    intro i
    have hm : workerMessages probe ⟨n, i, maxB⟩ = [notFoundMsg] :=
      workerMessages_of_no_match probe ⟨n, i, maxB⟩
        (fun v hv => h v (scannedFrom_sound n maxB maxB i v hv).2.1)
    simp only [workerSettlement, firstMessage, hm]
    rfl
  have hs : (List.range n).map
        (fun i => workerSettlement probe ⟨n, i, maxB⟩
          ((fun _ => WorkerBehavior.normal) i))
      = ((List.range n).map (fun _ => Reason.msgReason notFoundMsg)).map
          Settlement.rejected := by
    simp only [hw, List.map_map]
    rfl
  have key := promiseAny_all_rejected
    ((List.range n).map (fun _ => Reason.msgReason notFoundMsg))
  constructor
  · simp only [run, hs, key, RunOutput.succeeded]
    rfl
  · simp only [run, hs, key, RunOutput.failureCount]
    simp

/-- C3 witness: two workers over bound four with a probe that never matches
give no success and failure count two. -/
theorem run_no_match_all_fail_witness :
    (run 2 4 (fun _ => none) (fun _ => WorkerBehavior.normal) none).succeeded
      = false ∧
    (run 2 4 (fun _ => none) (fun _ => WorkerBehavior.normal) none).failureCount
      = 2 :=
  run_no_match_all_fail 2 4 (fun _ => none) (by decide) (fun _ _ => rfl)

/-- C4: on every exit path of run, first success, rejection of every promise,
or an internal spawn fault, the finally block runs the terminate method over
exactly the spawned workers, and afterwards every one of them is stopped with
its listeners detached. -/
theorem run_stops_all_workers (n maxB : Nat) (probe : Nat → Option String)
    (beh : Nat → WorkerBehavior) (spawnFail : Option Nat) :
    ((run n maxB probe beh spawnFail).finalWorkers.all
      (fun w => !w.running && !w.listenersAttached)) = true ∧
    (run n maxB probe beh spawnFail).finalWorkers.length
      = spawnedCount n spawnFail := by
  cases spawnFail with
  | some k =>
    refine ⟨terminateAll_stopped _, ?_⟩
    simp [run, terminateAll, spawnedCount]
  | none =>
    have hterm := terminateAll_stopped (List.replicate n spawnedHandle)
    have hlen : ((terminateAll (List.replicate n spawnedHandle)).map
        Prod.fst).length = n := by
      simp [terminateAll]
    cases hp : promiseAny
        ((List.range n).map (fun i => workerSettlement probe ⟨n, i, maxB⟩ (beh i))) with
    | ok m =>
      exact ⟨by simp only [run, hp]; exact hterm,
        by simp only [run, hp, spawnedCount]; exact hlen⟩
    | error rs =>
      exact ⟨by simp only [run, hp]; exact hterm,
        by simp only [run, hp, spawnedCount]; exact hlen⟩

/-- C5: with workerCount n at least one, worker i scans the stride class of i
below the bound; these partitions are pairwise disjoint and cover exactly the
interval from zero below the bound: every candidate below the bound is
scanned by worker v mod n, and every scanned candidate lies below the bound
and determines its worker index as its residue, so no two workers share a
candidate. -/
theorem stride_partition_disjoint_cover (n maxB : Nat) (hn : 1 ≤ n) :
    (∀ v, v < maxB → v % n < n ∧ v ∈ scanned (v % n) n maxB) ∧
    (∀ i v, i < n → v ∈ scanned i n maxB → v < maxB ∧ i = v % n) := by
  constructor
  · intro v hv
    refine ⟨Nat.mod_lt v hn, ?_⟩
    rw [mem_scanned _ _ _ _ hn]
    exact ⟨Nat.mod_le v n, hv, Nat.dvd_sub_mod v⟩
  · intro i v hi hv
    rw [mem_scanned _ _ _ _ hn] at hv
    obtain ⟨h1, h2, k, hk⟩ := hv
    refine ⟨h2, ?_⟩
    have hv' : v = i + n * k := by
      generalize n * k = A at hk ⊢
      omega
    rw [hv', Nat.add_mul_mod_self_left]
    exact (Nat.mod_eq_of_lt hi).symm

/-- C5 witness: with three workers and bound ten, candidate seven lies in the
partition of worker one, its residue class. -/
theorem stride_partition_disjoint_cover_witness :
    7 % 3 < 3 ∧ 7 ∈ scanned (7 % 3) 3 10 :=
  (stride_partition_disjoint_cover 3 10 (by decide)).1 7 (by decide)

/-- C6: a crash alone does not settle the race and a fulfilled promise would
still win afterwards; but on the code the claimed conjunction fails: with
five workers over bound five, worker two crashed and a probe matching only
candidate four, worker four posts its salt record, the handler rejects it for
want of an isSuccess field, all five promises reject and run fails with
failure count five instead of succeeding. -/
theorem crash_then_found_still_fails :
    promiseAny [Settlement.rejected (Reason.errEvent "boom"),
      Settlement.fulfilled (saltMsg 4)] = Except.ok (saltMsg 4) ∧
    workerSettlement probeAt4 ⟨5, 4, 5⟩ WorkerBehavior.normal
      = Settlement.rejected (Reason.msgReason (saltMsg 4)) ∧
    (run 5 5 probeAt4 behCrash2 none).succeeded = false ∧
    (run 5 5 probeAt4 behCrash2 none).failureCount = 5 := by
  refine ⟨rfl, ?_, ?_, ?_⟩ <;> decide

/-- C7 counterexample: on the empty partition of offset seven, stride five,
bound three, the worker posts exactly one message, and its reason reads Not
Found, not exhausted partition as the claim states. -/
theorem notFound_reason_differs :
    workerMessages (fun _ => none) ⟨5, 7, 3⟩ = [notFoundMsg] ∧
    notFoundMsg.errorMessage = some "Not Found" ∧
    ¬ notFoundMsg.errorMessage = some "exhausted partition" := by
  refine ⟨rfl, rfl, ?_⟩
  decide

/-- C7 amended: a worker whose partition holds no matching candidate,
including the empty partition, posts exactly one message over its channel,
the Not Found error, whose reason string is Not Found, and raises no fault
for the no-match case. -/
theorem exhausted_partition_single_notFound (probe : Nat → Option String)
    (m : Message)
    (h : ∀ v ∈ scanned m.offset m.workerNumber m.max, probe v = none) :
    workerMessages probe m = [notFoundMsg] ∧
    (workerMessages probe m).length = 1 ∧
    notFoundMsg.errorMessage = some "Not Found" := by
  have hm := workerMessages_of_no_match probe m h
  exact ⟨hm, by rw [hm]; rfl, rfl⟩

/-- C7 witness: the empty partition of offset seven, stride five, bound
three, under a probe that would match everything, still posts the single Not
Found message. -/
theorem exhausted_partition_single_notFound_witness :
    workerMessages (fun _ => some "0xd3ad") ⟨5, 7, 3⟩ = [notFoundMsg] ∧
    (workerMessages (fun _ => some "0xd3ad") ⟨5, 7, 3⟩).length = 1 ∧
    notFoundMsg.errorMessage = some "Not Found" :=
  exhausted_partition_single_notFound (fun _ => some "0xd3ad") ⟨5, 7, 3⟩
    (by decide)

/-- C8 counterexample: the route answer is the constant ok record both for a
probe with a match and for one without, so it exposes no found flag, value or
derived string; and the tasks are the fixed five workers over the fixed bound
of five hundred thousand, not caller supplied. -/
theorem entry_point_fixed_config :
    getHeavy (fun v => if v = 7 then some "0xd3ad" else none)
      (fun _ => WorkerBehavior.normal) = { data := "ok" } ∧
    getHeavy (fun _ => none) (fun _ => WorkerBehavior.normal) = { data := "ok" } ∧
    heavyTasks = [⟨5, 0, 500000⟩, ⟨5, 1, 500000⟩, ⟨5, 2, 500000⟩,
      ⟨5, 3, 500000⟩, ⟨5, 4, 500000⟩] :=
  ⟨rfl, rfl, rfl⟩

/-- C8 amended: the entry point takes no caller configuration; worker count
five and bound five hundred thousand are hardcoded, and the HTTP boundary
returns the constant ok record for every probe and every behavior. -/
theorem entry_point_hardcoded (probe : Nat → Option String)
    (beh : Nat → WorkerBehavior) :
    getHeavy probe beh = { data := "ok" } ∧
    workerNum = 5 ∧ saltMax = 500000 ∧
    heavyTasks = (List.range 5).map (fun i => ⟨5, i, 500000⟩) :=
  ⟨rfl, rfl, rfl, rfl⟩

/-- C9: the message handler classifies solely by the isSuccess field: some
true resolves, some false or an absent field rejects with the message; in
particular the actual salt payload of the worker, which lacks the field,
rejects, so a normal worker that finds its candidate still settles
rejected. -/
theorem classified_by_isSuccess_only (m : JsMsg) (i : Nat) :
    classifyMessage { m with isSuccess := some true }
      = Settlement.fulfilled { m with isSuccess := some true } ∧
    classifyMessage { m with isSuccess := some false }
      = Settlement.rejected (Reason.msgReason { m with isSuccess := some false }) ∧
    classifyMessage { m with isSuccess := none }
      = Settlement.rejected (Reason.msgReason { m with isSuccess := none }) ∧
    (saltMsg i).isSuccess = none ∧
    classifyMessage (saltMsg i)
      = Settlement.rejected (Reason.msgReason (saltMsg i)) ∧
    workerSettlement (fun v => if v = 0 then some "0xd3ad" else none) ⟨1, 0, 1⟩
      WorkerBehavior.normal = Settlement.rejected (Reason.msgReason (saltMsg 0)) :=
  ⟨rfl, rfl, rfl, rfl, rfl, rfl⟩

/-- C10: the terminate method removes every listener before calling terminate
on the worker, so the forced nonzero exit of a still running worker never
fires the exit listener and injects no late rejection; had the listeners
stayed attached, the exit event with code one would have fired. -/
theorem cleanup_removes_listeners_before_terminate (w : WorkerHandle)
    (ws : List WorkerHandle) :
    (terminateOne w).2 = false ∧
    (terminateOne w).1.running = false ∧
    (terminateOne w).1.listenersAttached = false ∧
    (((terminateAll ws).map Prod.snd).all (fun b => !b)) = true ∧
    exitListenerFires spawnedHandle 1 = true := by
  refine ⟨rfl, rfl, rfl, ?_, rfl⟩
  induction ws with
  | nil => rfl
  | cons x xs ih =>
    simp only [terminateAll, List.map_cons, List.all_cons] at ih ⊢
    exact ih

end WorkerPool
